import Mathlib

/-!
Shallow embedding of the credential-resolution and role-synchronization core
of the repository (files `superset/config/spcs_snowflake_engine_spec.py` and
`superset/config/sf_security.py`), together with theorems settling the
specification claims about it.

Python strings are modelled as Lean `String`; the Python string primitives
used by the source (`startswith`, `endswith`, `strip`, `removeprefix`,
`split(sep, 1)`, `lower`, slicing, membership) are modelled as `py*`
functions over the character list of the string.  Python's truthiness of
optional strings (`None` and `""` are falsy) is modelled by `truthy`, and
the `or` operator by `pyOr` / `pyOrStr`.  Exceptions are modelled with
`Except` over an explicit exception type, and the process file system state
at a read is modelled by `FsState`.
-/

/-- Python `s.startswith(p)`: `p` is a prefix of `s` (by characters). -/
def pyStartsWith (s p : String) : Bool := decide (p.data <+: s.data)

/-- Python `s.endswith(p)`: `p` is a suffix of `s` (by characters). -/
def pyEndsWith (s p : String) : Bool := decide (p.data <:+ s.data)

/-- Python `c in s` for a single character. -/
def pyContains (s : String) (c : Char) : Bool := decide (c ∈ s.data)

/-- Python `s.strip()`: remove leading and trailing whitespace. -/
def pyStrip (s : String) : String :=
  ⟨((s.data.dropWhile Char.isWhitespace).reverse.dropWhile Char.isWhitespace).reverse⟩

/-- Python `s.removeprefix(p)`. -/
def pyRemovePrefix (s p : String) : String :=
  if pyStartsWith s p then ⟨s.data.drop p.data.length⟩ else s

/-- Python `s.lower()` (ASCII lowering suffices for the auth-mode strings). -/
def pyLower (s : String) : String := ⟨s.data.map Char.toLower⟩

/-- Python `s.split(c, 1)[0]`: everything before the first occurrence of `c`
(the whole string when `c` does not occur). -/
def beforeFirst (s : String) (c : Char) : String :=
  ⟨s.data.takeWhile (fun a => !(decide (a = c)))⟩

/-- Python `s.split(c, 1)[1]` when `c` occurs in `s`. -/
def afterFirst (s : String) (c : Char) : Option String :=
  if pyContains s c then some ⟨(s.data.dropWhile (fun a => !(decide (a = c)))).drop 1⟩
  else none

/-- Python slice `s[:-(n)]` for `n ≤ len(s)`: drop the last `n` characters. -/
def pyDropRight (s : String) (n : Nat) : String := ⟨s.data.take (s.data.length - n)⟩

/-- Python truthiness of an optional string: `None` and `""` are falsy. -/
def truthy : Option String → Bool
  | none => false
  | some s => !(decide (s = ""))

/-- Python `a or b` on optional strings. -/
def pyOr (a b : Option String) : Option String := if truthy a then a else b

/-- Python `a or b` where `b` is a plain string (the result is a string). -/
def pyOrStr (a : Option String) (b : String) : String :=
  if truthy a then a.getD "" else b

/-- Python exceptions that the embedded code can raise or observe. -/
inductive PyExc where
  | fileNotFound
  | permissionDenied
  | runtimeError (msg : String)
  | other (excName : String)
deriving DecidableEq

/-- `type(ex).__name__` for the modelled exceptions. -/
def excTypeName : PyExc → String
  | .fileNotFound => "FileNotFoundError"
  | .permissionDenied => "PermissionError"
  | .runtimeError _ => "RuntimeError"
  | .other n => n

/-- State of the token file at the moment a read is attempted. -/
inductive FsState where
  | absent
  | denied
  | ioError (excName : String)
  | present (contents : String)

/-- Body of the `try` block of `_read_service_token`
(`spcs_snowflake_engine_spec.py`): open and read the file, strip, and raise
the empty-file `RuntimeError` when the stripped token is empty. -/
def readTokenBody (path : String) (fs : FsState) : Except PyExc String :=
  match fs with
  | .absent => .error .fileNotFound
  | .denied => .error .permissionDenied
  | .ioError n => .error (.other n)
  | .present contents =>
    let token := pyStrip contents
    if token = "" then
      .error (.runtimeError ("SPCS OAuth token file is empty (path=" ++ path ++ ")"))
    else .ok token

/-- `_read_service_token` of `spcs_snowflake_engine_spec.py`: the `try`
body together with its `except` clauses, in source order
(`FileNotFoundError`, then `PermissionError`, then the blanket
`except Exception`). -/
def readServiceToken (path : String) (fs : FsState) : Except PyExc (Option String) :=
  match readTokenBody path fs with
  | .ok token => .ok (some token)
  | .error .fileNotFound => .ok none
  | .error .permissionDenied =>
    .error (.runtimeError ("SPCS OAuth token exists but is not readable (path=" ++ path ++
      "). Check container user/permissions, or set SNOWFLAKE_SERVICE_TOKEN_PATH."))
  | .error e =>
    .error (.runtimeError ("Failed to read SPCS OAuth token (path=" ++ path ++ "): " ++
      excTypeName e))

/-- Snapshot of the environment variables read by
`spcs_snowflake_engine_spec.py` (`None` = unset). -/
structure Env where
  snowflakeAccount : Option String
  snowflakeAccountName : Option String
  snowflakeAccountIdentifier : Option String
  snowflakeAccountLocator : Option String
  snowflakeHost : Option String
  snowflakeDatabase : Option String
  snowflakeSchema : Option String
  snowflakeWarehouse : Option String
  snowflakeRole : Option String
  spcsSnowflakeAuth : Option String
  spcsSnowflakeDebug : Option String

/-- An environment snapshot with every variable unset. -/
def emptyEnv : Env := ⟨none, none, none, none, none, none, none, none, none, none, none⟩

/-- The query parameters of the connection URI that the source reads
(`q.get(...)`; `None` = parameter missing). -/
structure UrlQuery where
  database : Option String
  schema : Option String
  warehouse : Option String
  role : Option String
  spcsAuth : Option String

/-- The parsed connection URI as the source consumes it (`make_url(uri)`):
the database path component and the query parameters. -/
structure Url where
  database : Option String
  query : UrlQuery

/-- A URL with no database path component and no query parameters. -/
def urlEmpty : Url := ⟨none, ⟨none, none, none, none, none⟩⟩

/-- The ambient HTTP request, when one exists: the
`Sf-Context-Current-User-Token` header value (`None` = header missing). -/
structure RequestCtx where
  callerToken : Option String

/-- `_env_first`: first truthy value in the candidate list, else `None`. -/
def envFirst : List (Option String) → Option String
  | [] => none
  | x :: rest => if truthy x then x else envFirst rest

/-- `_infer_host`: keep an account that already looks like a hostname,
otherwise append the public warehouse domain. -/
def inferHost (account : String) : String :=
  if pyContains account '.' && pyEndsWith account ".snowflakecomputing.com" then account
  else account ++ ".snowflakecomputing.com"

/-- `_normalize_host`: strip whitespace, scheme prefixes, then any path and
port suffix. -/
def normalizeHost (host : String) : String :=
  let host1 := pyStrip host
  let host2 := if pyStartsWith host1 "https://" then pyRemovePrefix host1 "https://" else host1
  let host3 := if pyStartsWith host2 "http://" then pyRemovePrefix host2 "http://" else host2
  let host4 := beforeFirst host3 '/'
  beforeFirst host4 ':'

/-- `host[: -len(suffix)] or None` in `_infer_account_from_host`. -/
def stripSuffixOrNone (host suffix : String) : Option String :=
  let stripped := pyDropRight host suffix.data.length
  if stripped = "" then none else some stripped

/-- `_infer_account_from_host`: normalize, then try the two domain suffixes
in source order (`.snowflakecomputing.com` first, then
`.privatelink.snowflakecomputing.com`), returning on the first match. -/
def inferAccountFromHost (host : String) : Option String :=
  let host := normalizeHost host
  if pyEndsWith host ".snowflakecomputing.com" then
    stripSuffixOrNone host ".snowflakecomputing.com"
  else if pyEndsWith host ".privatelink.snowflakecomputing.com" then
    stripSuffixOrNone host ".privatelink.snowflakecomputing.com"
  else none

/-- `_split_database_schema`: split the URI database path at the first `/`
into database and schema, mapping empty parts to `None`. -/
def splitDatabaseSchema : Option String → Option String × Option String
  | none => (none, none)
  | some database =>
    if database = "" then (none, none)
    else if pyContains database '/' then
      let db := beforeFirst database '/'
      let schema := (afterFirst database '/').getD ""
      ((if db = "" then none else some db), (if schema = "" then none else some schema))
    else (some database, none)

/-- The database resolution chain of `_get_connect_kwargs`:
URI path, then URI query, then environment. -/
def resolveDatabase (env : Env) (url : Url) : Option String :=
  pyOr (splitDatabaseSchema url.database).1 (pyOr url.query.database env.snowflakeDatabase)

/-- The schema resolution chain of `_get_connect_kwargs`. -/
def resolveSchema (env : Env) (url : Url) : Option String :=
  pyOr (splitDatabaseSchema url.database).2 (pyOr url.query.schema env.snowflakeSchema)

/-- The warehouse resolution chain of `_get_connect_kwargs`. -/
def resolveWarehouse (env : Env) (url : Url) : Option String :=
  pyOr url.query.warehouse env.snowflakeWarehouse

/-- The role resolution chain of `_get_connect_kwargs`. -/
def resolveRole (env : Env) (url : Url) : Option String :=
  pyOr url.query.role env.snowflakeRole

/-- The account resolution of `_get_connect_kwargs`: first truthy account
environment variable, else inference from `SNOWFLAKE_HOST`. -/
def resolveAccount (env : Env) : Option String :=
  pyOr
    (envFirst [env.snowflakeAccount, env.snowflakeAccountName,
      env.snowflakeAccountIdentifier, env.snowflakeAccountLocator])
    (inferAccountFromHost (env.snowflakeHost.getD ""))

/-- The host resolution of `_get_connect_kwargs`: normalized
`SNOWFLAKE_HOST` when truthy, else inferred from the account. -/
def resolveHost (env : Env) (account : String) : String :=
  pyOrStr (some (normalizeHost (env.snowflakeHost.getD ""))) (inferHost account)

/-- The auth-mode resolution shared by `_get_connect_kwargs` and
`get_sqlalchemy_engine`: query parameter, else environment default
`"service"`, lowered. -/
def resolveSpcsAuth (env : Env) (url : Url) : String :=
  pyLower (pyOrStr url.query.spcsAuth (env.spcsSnowflakeAuth.getD "service"))

/-- The error message raised by `_get_connect_kwargs` when no account can be
resolved. -/
def missingAccountMsg : String :=
  "Missing Snowflake account env var (expected one of: SNOWFLAKE_ACCOUNT, " ++
  "SNOWFLAKE_ACCOUNT_NAME, SNOWFLAKE_ACCOUNT_IDENTIFIER, SNOWFLAKE_ACCOUNT_LOCATOR)"

/-- The `connect_kwargs` dictionary that `_get_connect_kwargs` builds before
the final `update(connect_args)`, viewed as a lookup function:
`host`, `account` and `authenticator` always, warehouse / role / database /
schema only when truthy. -/
def baseKwargs (host account : String) (warehouse role database schema : Option String) :
    String → Option String := fun k =>
  if k = "host" then some host
  else if k = "account" then some account
  else if k = "authenticator" then some "oauth"
  else if k = "warehouse" then (if truthy warehouse then warehouse else none)
  else if k = "role" then (if truthy role then role else none)
  else if k = "database" then (if truthy database then database else none)
  else if k = "schema" then (if truthy schema then schema else none)
  else none

/-- `_get_connect_kwargs` up to (but not including) the final
`connect_kwargs.update(connect_args)`: resolve every field, fail when no
account resolves, and perform the resolve-time caller-context validation. -/
def getConnectKwargsBase (env : Env) (url : Url) (req : Option RequestCtx) :
    Except PyExc (String → Option String) :=
  let account? := resolveAccount env
  if truthy account? then
    let account := account?.getD ""
    let host := resolveHost env account
    let base := baseKwargs host account (resolveWarehouse env url) (resolveRole env url)
      (resolveDatabase env url) (resolveSchema env url)
    if resolveSpcsAuth env url = "caller" then
      match req with
      | none => .error (.runtimeError "spcs_auth=caller requires an HTTP request context")
      | some r =>
        if truthy r.callerToken then .ok base
        else .error (.runtimeError
          "Missing Sf-Context-Current-User-Token header (execute-as-caller not enabled?)")
    else .ok base
  else .error (.runtimeError missingAccountMsg)

/-- The reserved keys popped from caller-supplied `connect_args` at the top
of `_get_connect_kwargs`. -/
def reservedKeys : List String :=
  ["account", "host", "authenticator", "token", "user", "username", "password"]

/-- Dictionary lookup in a caller-supplied `connect_args` map, modelled as
an association list (first binding wins, matching a dict's unique keys). -/
def lookupArgs : List (String × String) → String → Option String
  | [], _ => none
  | kv :: rest, k => if kv.fst = k then some kv.snd else lookupArgs rest k

/-- The `connect_args.pop(reserved_key, None)` loop: drop every reserved
key from the caller-supplied map. -/
def popReserved (args : List (String × String)) : List (String × String) :=
  args.filter (fun kv => !(reservedKeys.contains kv.fst))

/-- `_get_connect_kwargs`: the resolved base dictionary updated with the
caller-supplied `connect_args` (reserved keys removed); on `update`, a key
present in `connect_args` wins. -/
def getConnectKwargs (env : Env) (url : Url) (req : Option RequestCtx)
    (connectArgs : List (String × String)) : Except PyExc (String → Option String) :=
  (getConnectKwargsBase env url req).map (fun base k =>
    match lookupArgs (popReserved connectArgs) k with
    | some v => some v
    | none => base k)

/-- The `creator()` closure of `get_sqlalchemy_engine`, evaluated at one
physical-connection attempt: re-read the token file (state `fs` at mint
time), fail when it is unavailable, compose with the caller token in caller
mode, and hand `connect_kwargs | {"token": token}` to the connector.  The
result models the keyword arguments of the `snowflake.connector.connect`
call. -/
def creatorFn (connectKwargs : String → Option String) (spcsAuth : String) (path : String)
    (fs : FsState) (req : Option RequestCtx) : Except PyExc (String → Option String) :=
  match readServiceToken path fs with
  | .error e => .error e
  | .ok serviceToken? =>
    if truthy serviceToken? then
      if spcsAuth = "caller" then
        match req with
        | none => .error (.runtimeError "Working outside of request context.")
        | some r =>
          if truthy r.callerToken then
            .ok (fun k => if k = "token"
              then some (serviceToken?.getD "" ++ "." ++ r.callerToken.getD "")
              else connectKwargs k)
          else .error (.runtimeError
            "Missing Sf-Context-Current-User-Token header (execute-as-caller not enabled?)")
      else .ok (fun k => if k = "token" then some (serviceToken?.getD "") else connectKwargs k)
    else .error (.runtimeError ("SPCS OAuth token is not available (path=" ++ path ++ ")"))

/-- The engine value produced by `get_sqlalchemy_engine`: either the plain
stock engine built directly from the given URI and connect arguments, or
the brokered engine whose connections are produced by the `creator()`
closure (characterized by the captured connect kwargs, auth mode and token
path; `nullPool` records the caller-mode pooling override). -/
inductive Engine where
  | plain (uri : String) (connectArgs : List (String × String))
  | brokered (connectKwargs : String → Option String) (spcsAuth : String)
      (path : String) (nullPool : Bool)

/-- Result of `get_sqlalchemy_engine`: the engine plus the diagnostic log
entries emitted while building it. -/
structure EngineBuild where
  engine : Engine
  logs : List String

/-- `os.getenv("SPCS_SNOWFLAKE_DEBUG") == "1"`. -/
def debugEnabled (env : Env) : Bool := decide (env.spcsSnowflakeDebug = some "1")

/-- `get_sqlalchemy_engine`: read the token file once; when the token is
absent fall back to the stock engine built from the URI and connect args
unchanged; otherwise emit the debug diagnostics (when enabled), resolve the
connect kwargs and build the brokered engine around the `creator()`
closure. -/
def getSqlalchemyEngine (path : String) (fs : FsState) (env : Env) (uri : String) (url : Url)
    (req : Option RequestCtx) (connectArgs : List (String × String)) :
    Except PyExc EngineBuild :=
  match readServiceToken path fs with
  | .error e => .error e
  | .ok token? =>
    if truthy token? then
      let logs1 := if debugEnabled env then ["SPCS Snowflake EngineSpec enabled"] else []
      match getConnectKwargs env url req connectArgs with
      | .error e => .error e
      | .ok connectKwargs =>
        let spcsAuth := resolveSpcsAuth env url
        let logs2 := if debugEnabled env then ["SPCS Snowflake connect config"] else []
        .ok ⟨.brokered connectKwargs spcsAuth path (spcsAuth = "caller"), logs1 ++ logs2⟩
    else .ok ⟨.plain uri connectArgs, []⟩

/-- The `desired` set comprehension of
`SnowflakeSyncedSecurityManager.auth_user_remote_user` (`sf_security.py`):
warehouse roles filtered by the warehouse role prefix, each mapped to the
application prefix prepended to the full warehouse role name (as a
duplicate-free list standing for the Python set). -/
def desiredRoles (rolePrefix supersetPrefix : String) (sfRoles : List String) : List String :=
  ((sfRoles.filter (fun r => pyStartsWith r rolePrefix)).map
    (fun r => supersetPrefix ++ r)).dedup

/-- Python set difference `a - b` on role-name lists. -/
def listDiff (a b : List String) : List String := a.filter (fun x => !(decide (x ∈ b)))

/-- The application-side user record as the sync code touches it: the role
names attached to the user and the `last_login` timestamp (epoch seconds,
`None` when never set). -/
structure SfUser where
  roles : List String
  lastLogin : Option Int
deriving DecidableEq

/-- Observable outcome of one `auth_user_remote_user` sync pass over an
authenticated user: the resulting user record, how many role fetches were
attempted against the warehouse, and whether `db.session.commit()` ran. -/
structure SyncOutcome where
  user : SfUser
  fetchAttempts : Nat
  committed : Bool
deriving DecidableEq

/-- The TTL gate `cached_at and (now - int(cached_at.timestamp())) < SYNC_TTL_SECONDS`. -/
def isFresh (ttl now : Int) (lastLogin : Option Int) : Bool :=
  match lastLogin with
  | some cachedAt => decide (now - cachedAt < ttl)
  | none => false

/-- The reconciliation step of `auth_user_remote_user`: compute `current`,
append a role object for every name in `desired - current`, then (only when
`current - desired` is nonempty) rebuild the role list without the removed
names. -/
def reconcileRoles (supersetPrefix : String) (desired : List String) (roles : List String) :
    List String :=
  let current := (roles.filter (fun r => pyStartsWith r supersetPrefix)).dedup
  let toAdd := listDiff desired current
  let roles1 := roles ++ toAdd
  let toRemove := listDiff current desired
  if toRemove.isEmpty then roles1 else roles1.filter (fun r => !(decide (r ∈ toRemove)))

/-- The body of `auth_user_remote_user` after the base authentication
returned a user: TTL gate, best-effort fetch (outcome passed in as
`fetch`), reconciliation, commit.  `last_login` is never written here. -/
def syncUser (rolePrefix supersetPrefix : String) (ttl now : Int)
    (fetch : Except PyExc (List String)) (user : SfUser) : SyncOutcome :=
  if isFresh ttl now user.lastLogin then ⟨user, 0, false⟩
  else
    match fetch with
    | .error _ => ⟨user, 1, false⟩
    | .ok sfRoles =>
      let desired := desiredRoles rolePrefix supersetPrefix sfRoles
      ⟨⟨reconcileRoles supersetPrefix desired user.roles, user.lastLogin⟩, 1, true⟩

/-- `auth_user_remote_user` including the initial
`super().auth_user_remote_user(username)` outcome: `None` propagates,
otherwise the sync body runs on the returned user. -/
def authUserRemoteUser (rolePrefix supersetPrefix : String) (ttl now : Int)
    (fetch : Except PyExc (List String)) (superResult : Option SfUser) :
    Option SyncOutcome :=
  superResult.map (syncUser rolePrefix supersetPrefix ttl now fetch)

/-! ### Helper lemmas -/

/-- A string extended on the right starts with the original string. -/
theorem pyStartsWith_append (p s : String) : pyStartsWith (p ++ s) p = true := by
  simp only [pyStartsWith, String.data_append, decide_eq_true_iff]
  exact List.prefix_append p.data s.data

/-- Membership in the `desired` set: exactly the images of prefixed
warehouse roles. -/
theorem mem_desiredRoles_iff (wp ap m : String) (sfRoles : List String) :
    m ∈ desiredRoles wp ap sfRoles ↔
      ∃ r, r ∈ sfRoles ∧ pyStartsWith r wp = true ∧ m = ap ++ r := by
  simp only [desiredRoles, List.mem_dedup, List.mem_map, List.mem_filter]
  constructor
  · rintro ⟨r, ⟨hr, hp⟩, he⟩
    exact ⟨r, hr, hp, he.symm⟩
  · rintro ⟨r, hr, hp, he⟩
    exact ⟨r, ⟨hr, hp⟩, he.symm⟩

/-- Every member of the `desired` set carries the application prefix. -/
theorem mem_desiredRoles_startsWith (wp ap m : String) (sfRoles : List String)
    (h : m ∈ desiredRoles wp ap sfRoles) : pyStartsWith m ap = true := by
  obtain ⟨r, -, -, he⟩ := (mem_desiredRoles_iff wp ap m sfRoles).mp h
  subst he
  exact pyStartsWith_append ap r

/-- After reconciliation, the prefixed role names on the user are exactly
the desired set (assuming every desired name is prefixed, as the source
guarantees). -/
theorem mem_reconcile_prefixed (ap : String) (desired roles : List String)
    (hd : ∀ d ∈ desired, pyStartsWith d ap = true) (r : String) :
    (r ∈ reconcileRoles ap desired roles ∧ pyStartsWith r ap = true) ↔ r ∈ desired := by
  unfold reconcileRoles
  set current := (roles.filter (fun x => pyStartsWith x ap)).dedup with hcur
  have hmem_cur : ∀ x, x ∈ current ↔ x ∈ roles ∧ pyStartsWith x ap = true := by
    intro x
    simp [hcur, List.mem_dedup, List.mem_filter]
  by_cases hemp : (listDiff current desired).isEmpty = true
  · have hsub : ∀ x ∈ current, x ∈ desired := by
      intro x hx
      by_contra hnx
      have : x ∈ listDiff current desired := by
        simp [listDiff, List.mem_filter]
        exact ⟨hx, hnx⟩
      rw [List.isEmpty_iff] at hemp
      simp [hemp] at this
    simp only [hemp, if_pos]
    constructor
    · rintro ⟨hmem, hp⟩
      rcases List.mem_append.mp hmem with hroles | hadd
      · exact hsub r ((hmem_cur r).mpr ⟨hroles, hp⟩)
      · simp [listDiff, List.mem_filter] at hadd
        exact hadd.1
    · intro hr
      refine ⟨?_, hd r hr⟩
      by_cases hc : r ∈ current
      · exact List.mem_append.mpr (Or.inl ((hmem_cur r).mp hc).1)
      · refine List.mem_append.mpr (Or.inr ?_)
        simp [listDiff, List.mem_filter]
        exact ⟨hr, hc⟩
  · simp only [hemp, if_neg, Bool.not_eq_true]
    have hrem : ∀ x, x ∈ listDiff current desired ↔ x ∈ current ∧ ¬ x ∈ desired := by
      intro x
      simp [listDiff, List.mem_filter]
    constructor
    · rintro ⟨hmem, hp⟩
      rw [List.mem_filter] at hmem
      obtain ⟨hmem1, hnot⟩ := hmem
      have hnotrem : ¬ r ∈ listDiff current desired := by
        simpa using hnot
      rcases List.mem_append.mp hmem1 with hroles | hadd
      · have hc : r ∈ current := (hmem_cur r).mpr ⟨hroles, hp⟩
        by_contra hnd
        exact hnotrem ((hrem r).mpr ⟨hc, hnd⟩)
      · simp [listDiff, List.mem_filter] at hadd
        exact hadd.1
    · intro hr
      refine ⟨?_, hd r hr⟩
      rw [List.mem_filter]
      refine ⟨?_, by simp [(hrem r), hr]⟩
      by_cases hc : r ∈ current
      · exact List.mem_append.mpr (Or.inl ((hmem_cur r).mp hc).1)
      · refine List.mem_append.mpr (Or.inr ?_)
        simp [listDiff, List.mem_filter]
        exact ⟨hr, hc⟩

/-- Reconciliation never touches role names that do not carry the
application prefix. -/
theorem reconcile_nonprefixed (ap : String) (desired roles : List String)
    (hd : ∀ d ∈ desired, pyStartsWith d ap = true) :
    (reconcileRoles ap desired roles).filter (fun r => !(pyStartsWith r ap))
      = roles.filter (fun r => !(pyStartsWith r ap)) := by
  unfold reconcileRoles
  set current := (roles.filter (fun x => pyStartsWith x ap)).dedup with hcur
  have hadd_nil : (listDiff desired current).filter (fun r => !(pyStartsWith r ap)) = [] := by
    rw [List.filter_eq_nil_iff]
    intro a ha
    simp [listDiff, List.mem_filter] at ha
    simp [hd a ha.1]
  have hroles1 : (roles ++ listDiff desired current).filter (fun r => !(pyStartsWith r ap))
      = roles.filter (fun r => !(pyStartsWith r ap)) := by
    rw [List.filter_append, hadd_nil, List.append_nil]
  by_cases hemp : (listDiff current desired).isEmpty = true
  · simp only [hemp, if_pos]
    exact hroles1
  · simp only [hemp, if_neg, Bool.not_eq_true]
    rw [List.filter_comm, hroles1]
    rw [List.filter_eq_self]
    intro a ha
    rw [List.mem_filter] at ha
    have hpa : ¬ pyStartsWith a ap = true := by simpa using ha.2
    simp only [Bool.not_eq_true', decide_eq_false_iff_not]
    intro harem
    simp [listDiff, List.mem_filter, hcur, List.mem_dedup] at harem
    exact hpa harem.1.2

/-- Looking a key up after the reserved-key pop: reserved keys are gone,
all other keys are unchanged. -/
theorem lookupArgs_popReserved (args : List (String × String)) (k : String) :
    lookupArgs (popReserved args) k
      = if k ∈ reservedKeys then none else lookupArgs args k := by
  induction args with
  | nil => simp [lookupArgs, popReserved]
  | cons kv rest ih =>
    by_cases hres : kv.1 ∈ reservedKeys
    · rw [show popReserved (kv :: rest) = popReserved rest by
        simp [popReserved, List.filter_cons, hres]]
      rw [ih]
      by_cases hk : kv.1 = k
      · subst hk
        simp [hres]
      · simp [lookupArgs, hk]
    · rw [show popReserved (kv :: rest) = kv :: popReserved rest by
        simp [popReserved, List.filter_cons, hres]]
      by_cases hk : kv.1 = k
      · subst hk
        simp [lookupArgs, hres]
      · simp [lookupArgs, hk, ih]

/-- Characterization of a successful `_get_connect_kwargs` base resolution:
the result is exactly the `baseKwargs` lookup built from the field
resolvers. -/
theorem getConnectKwargsBase_ok (env : Env) (url : Url) (req : Option RequestCtx)
    (base : String → Option String) (h : getConnectKwargsBase env url req = .ok base) :
    base = baseKwargs (resolveHost env ((resolveAccount env).getD ""))
      ((resolveAccount env).getD "") (resolveWarehouse env url) (resolveRole env url)
      (resolveDatabase env url) (resolveSchema env url) := by
  simp only [getConnectKwargsBase] at h
  split at h
  · split at h
    · split at h
      · simp at h
      · split at h
        · exact (Except.ok.inj h).symm
        · simp at h
    · exact (Except.ok.inj h).symm
  · simp at h

/-- Characterization of a successful `_get_connect_kwargs`: the final
dictionary is the base lookups updated by the reserved-stripped caller
arguments. -/
theorem getConnectKwargs_ok (env : Env) (url : Url) (req : Option RequestCtx)
    (args : List (String × String)) (kw : String → Option String)
    (h : getConnectKwargs env url req args = .ok kw) :
    kw = fun k =>
      match lookupArgs (popReserved args) k with
      | some v => some v
      | none => baseKwargs (resolveHost env ((resolveAccount env).getD ""))
          ((resolveAccount env).getD "") (resolveWarehouse env url) (resolveRole env url)
          (resolveDatabase env url) (resolveSchema env url) k := by
  unfold getConnectKwargs at h
  cases hb : getConnectKwargsBase env url req with
  | error e =>
    rw [hb] at h
    simp [Except.map] at h
  | ok base =>
    rw [hb] at h
    simp only [Except.map] at h
    have hbase := getConnectKwargsBase_ok env url req base hb
    subst hbase
    exact (Except.ok.inj h).symm

/-- `takeWhile` runs through a block that satisfies the predicate and stops
at the first failing character. -/
theorem takeWhile_append_cons {p : Char → Bool} {l1 l2 : List Char} {c : Char}
    (h1 : ∀ a ∈ l1, p a = true) (hc : p c = false) :
    (l1 ++ c :: l2).takeWhile p = l1 := by
  induction l1 with
  | nil => simp [List.takeWhile_cons, hc]
  | cons a t ih =>
    have ha := h1 a (List.mem_cons_self a t)
    simp [List.takeWhile_cons, ha, ih (fun b hb => h1 b (List.mem_cons_of_mem a hb))]

/-- `dropWhile` drops exactly the leading block that satisfies the
predicate. -/
theorem dropWhile_append_cons {p : Char → Bool} {l1 l2 : List Char} {c : Char}
    (h1 : ∀ a ∈ l1, p a = true) (hc : p c = false) :
    (l1 ++ c :: l2).dropWhile p = c :: l2 := by
  induction l1 with
  | nil => simp [List.dropWhile_cons, hc]
  | cons a t ih =>
    have ha := h1 a (List.mem_cons_self a t)
    simp [List.dropWhile_cons, ha, ih (fun b hb => h1 b (List.mem_cons_of_mem a hb))]

/-- The character data of a `database/schema` path. -/
theorem data_db_slash_schema (db sc : String) :
    (db ++ "/" ++ sc).data = db.data ++ '/' :: sc.data := by
  simp [String.data_append]

/-- `_split_database_schema` on a path of the form `database/schema` (with
a slash-free, nonempty database part and nonempty schema part) yields
exactly that database and schema. -/
theorem splitDatabaseSchema_concat (db sc : String) (hdb : db ≠ "") (hsc : sc ≠ "")
    (hns : ¬ '/' ∈ db.data) :
    splitDatabaseSchema (some (db ++ "/" ++ sc)) = (some db, some sc) := by
  have hdata := data_db_slash_schema db sc
  have hne : db ++ "/" ++ sc ≠ "" := by
    intro he
    have : (db ++ "/" ++ sc).data = [] := by rw [he]
    rw [hdata] at this
    simp at this
  have hcont : pyContains (db ++ "/" ++ sc) '/' = true := by
    simp [pyContains, hdata]
  have hpred : ∀ a ∈ db.data, (!(decide (a = '/'))) = true := by
    intro a ha
    have : a ≠ '/' := fun he => hns (he ▸ ha)
    simp [this]
  have hslash : (!(decide ('/' = '/'))) = false := by simp
  have hbefore : beforeFirst (db ++ "/" ++ sc) '/' = db := by
    show String.mk _ = db
    rw [hdata, takeWhile_append_cons hpred hslash]
  have hafter : afterFirst (db ++ "/" ++ sc) '/' = some sc := by
    simp only [afterFirst, hcont, if_pos]
    rw [hdata, dropWhile_append_cons hpred hslash]
    simp
  simp only [splitDatabaseSchema, hne, hcont, if_neg, if_pos, hbefore, hafter,
    Option.getD_some]
  simp [hdb, hsc]

/-- The `creator()` closure in service mode: minting succeeds and carries
the freshly stripped on-disk token. -/
theorem creatorFn_service (kw : String → Option String) (path t : String)
    (req : Option RequestCtx) (ht : ¬ pyStrip t = "") :
    creatorFn kw "service" path (FsState.present t) req
      = .ok (fun k => if k = "token" then some (pyStrip t) else kw k) := by
  simp only [creatorFn, readServiceToken, readTokenBody]
  rw [if_neg ht]
  simp [truthy, ht]

/-- The `creator()` closure in caller mode with a nonempty caller header:
minting succeeds and carries `serviceToken + "." + callerToken`. -/
theorem creatorFn_caller (kw : String → Option String) (path t ct : String)
    (ht : ¬ pyStrip t = "") (hct : ¬ ct = "") :
    creatorFn kw "caller" path (FsState.present t) (some ⟨some ct⟩)
      = .ok (fun k => if k = "token" then some (pyStrip t ++ "." ++ ct) else kw k) := by
  simp only [creatorFn, readServiceToken, readTokenBody]
  rw [if_neg ht]
  simp [truthy, ht, hct]

/-- C4 (code_bug evidence): the observable behaviour of
`_read_service_token` per file state.  A missing file yields `None`
(`Absent`); a permission failure yields the dedicated unreadable error;
another I/O failure is wrapped with the path and the exception name; a
nonempty file yields the trimmed token.  However an EMPTY file does not
surface the dedicated empty-file error: the `RuntimeError` raised inside
the `try` block is caught by the blanket `except Exception` clause and
re-wrapped as the generic "Failed to read ...: RuntimeError" message, so
the distinct `Empty` failure the claim describes never reaches the
caller. -/
theorem readServiceToken_taxonomy :
    readServiceToken "/snowflake/session/token" FsState.absent = .ok none
    ∧ readServiceToken "/snowflake/session/token" FsState.denied
      = .error (.runtimeError ("SPCS OAuth token exists but is not readable " ++
          "(path=/snowflake/session/token). Check container user/permissions, " ++
          "or set SNOWFLAKE_SERVICE_TOKEN_PATH."))
    ∧ readServiceToken "/snowflake/session/token" (FsState.ioError "OSError")
      = .error (.runtimeError
          "Failed to read SPCS OAuth token (path=/snowflake/session/token): OSError")
    ∧ readServiceToken "/snowflake/session/token" (FsState.present " svc123\n")
      = .ok (some "svc123")
    ∧ readServiceToken "/snowflake/session/token" (FsState.present "")
      = .error (.runtimeError
          "Failed to read SPCS OAuth token (path=/snowflake/session/token): RuntimeError")
    ∧ readServiceToken "/snowflake/session/token" (FsState.present "   ")
      = .error (.runtimeError
          "Failed to read SPCS OAuth token (path=/snowflake/session/token): RuntimeError") :=
  ⟨rfl, rfl, rfl, rfl, rfl, rfl⟩

/-- C5 (code_bug evidence): `_infer_account_from_host` checks the suffix
`.snowflakecomputing.com` first, so the private-link branch is dead code: a
private-link host keeps the `.privatelink` tail in the inferred account
instead of yielding the bare account.  The public variant and the
missing-account failure behave as claimed, and with all four account
variables unset the account comes from the host inference. -/
theorem inferAccount_privatelink_not_stripped :
    inferAccountFromHost "myacct.privatelink.snowflakecomputing.com"
      = some "myacct.privatelink"
    ∧ inferAccountFromHost "myacct.snowflakecomputing.com" = some "myacct"
    ∧ getConnectKwargsBase emptyEnv urlEmpty none
      = .error (.runtimeError missingAccountMsg)
    ∧ (∀ hostStr : String,
        resolveAccount (Env.mk none none none none (some hostStr) none none none none none none)
          = inferAccountFromHost hostStr) :=
  ⟨rfl, rfl, rfl, fun _ => rfl⟩

/-- C6: when the token file is absent at engine-creation time,
`get_sqlalchemy_engine` returns the plain stock engine built directly from
the given URI and connect args — no brokered engine, no parameter
resolution, and no diagnostic log entries, for every environment (including
one with the debug flag enabled). -/
theorem absent_token_plain_engine (path : String) (env : Env) (uri : String) (url : Url)
    (req : Option RequestCtx) (connectArgs : List (String × String)) :
    getSqlalchemyEngine path FsState.absent env uri url req connectArgs
      = .ok ⟨Engine.plain uri connectArgs, []⟩ := rfl

/-- C1 (counterexample): with warehouse prefix `BI_` and application prefix
`SF_`, the warehouse role `BI_SALES` is mirrored as `SF_BI_SALES` — the
warehouse prefix is NOT stripped before re-prefixing, so the claimed
mirrored name `SF_SALES` is not produced. -/
theorem desiredRoles_no_strip_cex :
    desiredRoles "BI_" "SF_" ["BI_SALES"] = ["SF_BI_SALES"]
    ∧ ¬ "SF_SALES" ∈ desiredRoles "BI_" "SF_" ["BI_SALES"] := by
  refine ⟨rfl, ?_⟩
  decide

/-- C1 (amended): the application-side mirrored names are exactly the
application prefix prepended to the FULL warehouse role name, for warehouse
roles that start with the warehouse prefix; warehouse roles not starting
with the warehouse prefix contribute no mirrored role. -/
theorem desiredRoles_full_name (wp ap m : String) (sfRoles : List String) :
    m ∈ desiredRoles wp ap sfRoles
      ↔ ∃ r, r ∈ sfRoles ∧ pyStartsWith r wp = true ∧ m = ap ++ r :=
  mem_desiredRoles_iff wp ap m sfRoles

/-- Witness for the amended C1 at a concrete input. -/
theorem desiredRoles_full_name_witness :
    "SF_BI_SALES" ∈ desiredRoles "BI_" "SF_" ["BI_SALES"] :=
  (desiredRoles_full_name "BI_" "SF_" "SF_BI_SALES" ["BI_SALES"]).mpr
    ⟨"BI_SALES", by decide, by decide, rfl⟩

/-- C2: the minted credential re-reads the token file at mint time (two
mints over different file states yield the respective fresh tokens), equals
the stripped service token in service mode, and equals
`serviceToken + "." + callerToken` in caller mode. -/
theorem mint_rereads_and_composes (kw : String → Option String) (path ct t t' : String)
    (req : Option RequestCtx)
    (ht : ¬ pyStrip t = "") (ht' : ¬ pyStrip t' = "") (hct : ¬ ct = "") :
    (creatorFn kw "service" path (FsState.present t) req).map (fun c => c "token")
      = .ok (some (pyStrip t))
    ∧ (creatorFn kw "service" path (FsState.present t') req).map (fun c => c "token")
      = .ok (some (pyStrip t'))
    ∧ (creatorFn kw "caller" path (FsState.present t) (some ⟨some ct⟩)).map
        (fun c => c "token")
      = .ok (some (pyStrip t ++ "." ++ ct)) := by
  refine ⟨?_, ?_, ?_⟩
  · rw [creatorFn_service kw path t req ht]
    rfl
  · rw [creatorFn_service kw path t' req ht']
    rfl
  · rw [creatorFn_caller kw path t ct ht hct]
    rfl

/-- Witness for C2: token file `svc123` plus caller header `usrABC` in
caller mode mints `svc123.usrABC`; a second mint over a rotated file
`svc456` in service mode reflects the new token. -/
theorem mint_rereads_and_composes_witness :
    ¬ pyStrip "svc123" = ""
    ∧ (creatorFn (fun _ => none) "caller" "/snowflake/session/token"
        (FsState.present "svc123") (some ⟨some "usrABC"⟩)).map (fun c => c "token")
      = .ok (some "svc123.usrABC")
    ∧ (creatorFn (fun _ => none) "service" "/snowflake/session/token"
        (FsState.present "svc456") none).map (fun c => c "token")
      = .ok (some "svc456") := by
  refine ⟨by decide, ?_, ?_⟩
  · exact (mint_rereads_and_composes (fun _ => none) "/snowflake/session/token" "usrABC"
      "svc123" "svc456" none (by decide) (by decide) (by decide)).2.2
  · exact (mint_rereads_and_composes (fun _ => none) "/snowflake/session/token" "usrABC"
      "svc456" "svc123" none (by decide) (by decide) (by decide)).1

/-- C7: within the TTL window the sync is a no-op (same user back, no
fetch); when `last_login` is absent or stale exactly one fetch is
attempted; and every fetch failure is swallowed, returning the user with
roles unchanged and nothing committed (login never fails). -/
theorem sync_ttl_gate_and_best_effort (wp ap : String) (ttl now : Int)
    (fetch : Except PyExc (List String)) (u : SfUser) :
    (isFresh ttl now u.lastLogin = true →
        syncUser wp ap ttl now fetch u = ⟨u, 0, false⟩)
    ∧ (isFresh ttl now u.lastLogin = false →
        (syncUser wp ap ttl now fetch u).fetchAttempts = 1)
    ∧ (∀ e, fetch = .error e →
        (syncUser wp ap ttl now fetch u).user = u
        ∧ (syncUser wp ap ttl now fetch u).committed = false) := by
  refine ⟨?_, ?_, ?_⟩
  · intro hf
    simp [syncUser, hf]
  · intro hf
    simp only [syncUser, hf]
    cases fetch <;> simp
  · intro e he
    subst he
    by_cases hf : isFresh ttl now u.lastLogin = true <;> simp [syncUser, hf]

/-- Witness for C7: a fresh user is returned unchanged with no fetch, and a
stale user triggers exactly one fetch attempt. -/
theorem sync_ttl_gate_witness :
    isFresh 300 1000 (some 900) = true
    ∧ syncUser "BI_" "SF_" 300 1000 (.error .fileNotFound) ⟨["Admin"], some 900⟩
      = ⟨⟨["Admin"], some 900⟩, 0, false⟩
    ∧ isFresh 300 1000 (some 0) = false
    ∧ (syncUser "BI_" "SF_" 300 1000 (.ok ["BI_X"]) ⟨["Admin"], some 0⟩).fetchAttempts = 1 := by
  refine ⟨by decide, ?_, by decide, ?_⟩
  · exact (sync_ttl_gate_and_best_effort "BI_" "SF_" 300 1000 (.error .fileNotFound)
      ⟨["Admin"], some 900⟩).1 (by decide)
  · exact (sync_ttl_gate_and_best_effort "BI_" "SF_" 300 1000 (.ok ["BI_X"])
      ⟨["Admin"], some 0⟩).2.1 (by decide)

/-- C8 (counterexample): a successful fetch-and-reconcile commits but does
NOT update the user's `last_login` timestamp, so an immediately following
sync attempt is still stale (it attempts another fetch) instead of falling
in the Fresh state as the claim requires. -/
theorem sync_does_not_update_last_login_cex :
    (syncUser "BI_" "SF_" 300 1000 (.ok ["BI_X"]) ⟨["Admin"], some 0⟩).committed = true
    ∧ (syncUser "BI_" "SF_" 300 1000 (.ok ["BI_X"]) ⟨["Admin"], some 0⟩).user.lastLogin
      = some 0
    ∧ isFresh 300 1001
        ((syncUser "BI_" "SF_" 300 1000 (.ok ["BI_X"]) ⟨["Admin"], some 0⟩).user.lastLogin)
      = false
    ∧ (syncUser "BI_" "SF_" 300 1001 (.ok ["BI_X"])
        (syncUser "BI_" "SF_" 300 1000 (.ok ["BI_X"]) ⟨["Admin"], some 0⟩).user).fetchAttempts
      = 1 := by
  decide

/-- C8 (amended): after every successful fetch-and-reconcile the sync body
commits the role changes, but it leaves `last_login` — the timestamp the
TTL gate reads — exactly as it found it; the timestamp is maintained by the
surrounding authentication flow, not by the role syncer. -/
theorem sync_commits_but_preserves_last_login (wp ap : String) (ttl now : Int)
    (sfRoles : List String) (u : SfUser)
    (hstale : isFresh ttl now u.lastLogin = false) :
    (syncUser wp ap ttl now (.ok sfRoles) u).committed = true
    ∧ (syncUser wp ap ttl now (.ok sfRoles) u).user.lastLogin = u.lastLogin := by
  simp [syncUser, hstale]

/-- Witness for the amended C8 at a concrete stale user. -/
theorem sync_commits_but_preserves_last_login_witness :
    isFresh 300 1000 (some 0) = false
    ∧ ((syncUser "BI_" "SF_" 300 1000 (.ok ["BI_X"]) ⟨["Admin"], some 0⟩).committed = true
      ∧ (syncUser "BI_" "SF_" 300 1000 (.ok ["BI_X"]) ⟨["Admin"], some 0⟩).user.lastLogin
        = some 0) :=
  ⟨by decide, sync_commits_but_preserves_last_login "BI_" "SF_" 300 1000 ["BI_X"]
    ⟨["Admin"], some 0⟩ (by decide)⟩

/-- C3: after a successful fetch, the application-prefixed role names on
the user are exactly the desired set (additions and removals both applied),
and role names not carrying the application prefix are untouched. -/
theorem roles_reconciled_to_desired (wp ap : String) (ttl now : Int) (sfRoles : List String)
    (u : SfUser) (hstale : isFresh ttl now u.lastLogin = false) :
    ((syncUser wp ap ttl now (.ok sfRoles) u).user.roles.filter
        (fun r => pyStartsWith r ap)).toFinset
      = (desiredRoles wp ap sfRoles).toFinset
    ∧ (syncUser wp ap ttl now (.ok sfRoles) u).user.roles.filter
        (fun r => !(pyStartsWith r ap))
      = u.roles.filter (fun r => !(pyStartsWith r ap)) := by
  have hd : ∀ d ∈ desiredRoles wp ap sfRoles, pyStartsWith d ap = true :=
    fun d hdm => mem_desiredRoles_startsWith wp ap d sfRoles hdm
  have hroles : (syncUser wp ap ttl now (.ok sfRoles) u).user.roles
      = reconcileRoles ap (desiredRoles wp ap sfRoles) u.roles := by
    simp [syncUser, hstale]
  refine ⟨?_, ?_⟩
  · rw [hroles]
    ext r
    simp only [List.mem_toFinset, List.mem_filter]
    exact mem_reconcile_prefixed ap (desiredRoles wp ap sfRoles) u.roles hd r
  · rw [hroles]
    exact reconcile_nonprefixed ap (desiredRoles wp ap sfRoles) u.roles hd

/-- Witness for C3: current = {SF_A, SF_B} (plus the untouched `Admin`),
desired = {SF_BI_B, SF_BI_C}; the prefixed roles end up exactly desired and
`Admin` survives. -/
theorem roles_reconciled_to_desired_witness :
    isFresh 300 1000 (some 0) = false
    ∧ ((((syncUser "BI_" "SF_" 300 1000 (.ok ["BI_B", "BI_C"])
          ⟨["SF_A", "SF_B", "Admin"], some 0⟩).user.roles.filter
            (fun r => pyStartsWith r "SF_")).toFinset
        = (desiredRoles "BI_" "SF_" ["BI_B", "BI_C"]).toFinset)
      ∧ (syncUser "BI_" "SF_" 300 1000 (.ok ["BI_B", "BI_C"])
          ⟨["SF_A", "SF_B", "Admin"], some 0⟩).user.roles.filter
            (fun r => !(pyStartsWith r "SF_"))
        = (["SF_A", "SF_B", "Admin"] : List String).filter
            (fun r => !(pyStartsWith r "SF_"))) :=
  ⟨by decide, roles_reconciled_to_desired "BI_" "SF_" 300 1000 ["BI_B", "BI_C"]
    ⟨["SF_A", "SF_B", "Admin"], some 0⟩ (by decide)⟩

/-- C9: for a URI whose path carries a `database/schema` segment, the
resolved database and schema come from the path, whatever the query
parameters and environment say; and for fields without a path source
(warehouse, role) the query parameter overrides the environment default,
which applies only when the query parameter is missing. -/
theorem uri_path_precedence (env : Env) (q : UrlQuery) (req : Option RequestCtx)
    (kw : String → Option String) (db sc : String)
    (hdb : ¬ db = "") (hsc : ¬ sc = "") (hns : ¬ '/' ∈ db.data)
    (hok : getConnectKwargs env ⟨some (db ++ "/" ++ sc), q⟩ req [] = .ok kw) :
    kw "database" = some db
    ∧ kw "schema" = some sc
    ∧ (∀ w, ¬ w = "" → q.warehouse = some w → kw "warehouse" = some w)
    ∧ (∀ w, ¬ w = "" → q.warehouse = none → env.snowflakeWarehouse = some w →
        kw "warehouse" = some w)
    ∧ (∀ r, ¬ r = "" → q.role = some r → kw "role" = some r)
    ∧ (∀ r, ¬ r = "" → q.role = none → env.snowflakeRole = some r → kw "role" = some r) := by
  have hkw := getConnectKwargs_ok env ⟨some (db ++ "/" ++ sc), q⟩ req [] kw hok
  subst hkw
  have hsplit := splitDatabaseSchema_concat db sc hdb hsc hns
  have hdbres : resolveDatabase env ⟨some (db ++ "/" ++ sc), q⟩ = some db := by
    simp [resolveDatabase, hsplit, pyOr, truthy, hdb]
  have hscres : resolveSchema env ⟨some (db ++ "/" ++ sc), q⟩ = some sc := by
    simp [resolveSchema, hsplit, pyOr, truthy, hsc]
  refine ⟨?_, ?_, ?_, ?_, ?_, ?_⟩
  · simp [lookupArgs, popReserved, baseKwargs, hdbres, truthy, hdb]
  · simp [lookupArgs, popReserved, baseKwargs, hscres, truthy, hsc]
  · intro w hw hq
    have hwres : resolveWarehouse env ⟨some (db ++ "/" ++ sc), q⟩ = some w := by
      simp [resolveWarehouse, hq, pyOr, truthy, hw]
    simp [lookupArgs, popReserved, baseKwargs, hwres, truthy, hw]
  · intro w hw hq he
    have hwres : resolveWarehouse env ⟨some (db ++ "/" ++ sc), q⟩ = some w := by
      simp [resolveWarehouse, hq, he, pyOr, truthy, hw]
    simp [lookupArgs, popReserved, baseKwargs, hwres, truthy, hw]
  · intro r hr hq
    have hrres : resolveRole env ⟨some (db ++ "/" ++ sc), q⟩ = some r := by
      simp [resolveRole, hq, pyOr, truthy, hr]
    simp [lookupArgs, popReserved, baseKwargs, hrres, truthy, hr]
  · intro r hr hq he
    have hrres : resolveRole env ⟨some (db ++ "/" ++ sc), q⟩ = some r := by
      simp [resolveRole, hq, he, pyOr, truthy, hr]
    simp [lookupArgs, popReserved, baseKwargs, hrres, truthy, hr]

/-- Shape of every successful mint: the connection kwargs are the resolved
kwargs with only the `token` key overridden by the freshly minted
credential. -/
theorem creatorFn_ok_shape (kw : String → Option String) (spcsAuth path : String)
    (fs : FsState) (reqM : Option RequestCtx) (c : String → Option String)
    (hc : creatorFn kw spcsAuth path fs reqM = .ok c) :
    ∃ st, readServiceToken path fs = .ok (some st)
      ∧ c = fun k => if k = "token"
          then some (if spcsAuth = "caller"
            then st ++ "." ++ ((reqM.bind (fun r => r.callerToken)).getD "")
            else st)
          else kw k := by
  unfold creatorFn at hc
  split at hc
  · exact absurd hc (by simp)
  · rename_i st? hr
    split at hc
    · rename_i hts
      cases st? with
      | none => simp [truthy] at hts
      | some st =>
        refine ⟨st, hr, ?_⟩
        split at hc
        · rename_i hca
          split at hc
          · exact absurd hc (by simp)
          · rename_i r
            split at hc
            · rw [← Except.ok.inj hc]
              funext k
              simp [hca]
            · exact absurd hc (by simp)
        · rename_i hca
          rw [← Except.ok.inj hc]
          funext k
          simp [hca]
    · exact absurd hc (by simp)

/-- C10: connect-argument maps that agree outside the reserved keys resolve
to the same connection kwargs (caller-supplied values for the reserved keys
are discarded before merging); the resolved kwargs never carry a
caller-supplied credential field and always carry authenticator `oauth`;
and every successfully minted per-connection kwargs carries authenticator
`oauth` and the freshly re-read token, so no caller-supplied credential can
override the brokered identity. -/
theorem reserved_keys_cannot_override (env : Env) (url : Url) (req : Option RequestCtx)
    (a1 a2 : List (String × String)) (kw : String → Option String)
    (hagree : ∀ k, ¬ k ∈ reservedKeys → lookupArgs a1 k = lookupArgs a2 k)
    (hok : getConnectKwargs env url req a1 = .ok kw) :
    getConnectKwargs env url req a2 = .ok kw
    ∧ kw "authenticator" = some "oauth"
    ∧ kw "token" = none
    ∧ kw "user" = none
    ∧ kw "username" = none
    ∧ kw "password" = none
    ∧ (∀ spcsAuth path fs reqM c, creatorFn kw spcsAuth path fs reqM = .ok c →
        c "authenticator" = some "oauth"
        ∧ ∃ st, readServiceToken path fs = .ok (some st)
            ∧ c "token" = some (if spcsAuth = "caller"
                then st ++ "." ++ ((reqM.bind (fun r => r.callerToken)).getD "")
                else st)) := by
  have hpop : ∀ k, lookupArgs (popReserved a1) k = lookupArgs (popReserved a2) k := by
    intro k
    rw [lookupArgs_popReserved, lookupArgs_popReserved]
    by_cases hk : k ∈ reservedKeys
    · simp [hk]
    · simp [hk, hagree k hk]
  have hkw := getConnectKwargs_ok env url req a1 kw hok
  have h2 : getConnectKwargs env url req a2 = .ok kw := by
    unfold getConnectKwargs at hok ⊢
    cases hb : getConnectKwargsBase env url req with
    | error e =>
      rw [hb] at hok
      simp [Except.map] at hok
    | ok base =>
      rw [hb] at hok
      simp only [Except.map] at hok ⊢
      rw [← Except.ok.inj hok]
      congr 1
      funext k
      rw [hpop k]
  have htok : kw "token" = none := by
    rw [hkw]
    simp [lookupArgs_popReserved, reservedKeys, baseKwargs]
  have hauth : kw "authenticator" = some "oauth" := by
    rw [hkw]
    simp [lookupArgs_popReserved, reservedKeys, baseKwargs]
  refine ⟨h2, hauth, htok, ?_, ?_, ?_, ?_⟩
  · rw [hkw]
    simp [lookupArgs_popReserved, reservedKeys, baseKwargs]
  · rw [hkw]
    simp [lookupArgs_popReserved, reservedKeys, baseKwargs]
  · rw [hkw]
    simp [lookupArgs_popReserved, reservedKeys, baseKwargs]
  · intro spcsAuth path fs reqM c hc
    obtain ⟨st, hread, hcfun⟩ := creatorFn_ok_shape kw spcsAuth path fs reqM c hc
    subst hcfun
    refine ⟨?_, st, hread, ?_⟩
    · simp [hauth]
    · simp

/-- Environment for the C9 witness: account set; database, schema,
warehouse and role environment defaults all set (and overridden). -/
def envC9 : Env := ⟨some "myacct", none, none, none, none, some "EDB", some "ESC",
  some "EWH", some "ER", none, none⟩

/-- Query parameters for the C9 witness: database, schema and warehouse
query parameters set; role missing. -/
def qC9 : UrlQuery := ⟨some "QDB", some "QSC", some "QWH", none, none⟩

/-- Witness for C9: with path `mydb/mysc`, query database/schema `QDB`/`QSC`
and environment defaults also set, the path wins for database and schema,
the query wins for warehouse, and the environment applies for the role only
because its query parameter is missing. -/
theorem uri_path_precedence_witness :
    (getConnectKwargs envC9 ⟨some ("mydb" ++ "/" ++ "mysc"), qC9⟩ none []).map
        (fun kw => (kw "database", kw "schema", kw "warehouse", kw "role"))
      = .ok (some "mydb", some "mysc", some "QWH", some "ER") := by
  obtain ⟨kw, hkw⟩ : ∃ kw, getConnectKwargs envC9 ⟨some ("mydb" ++ "/" ++ "mysc"), qC9⟩
      none [] = .ok kw := ⟨_, rfl⟩
  obtain ⟨h1, h2, h3, h4, h5, h6⟩ := uri_path_precedence envC9 qC9 none kw "mydb" "mysc"
    (by decide) (by decide) (by decide) hkw
  rw [hkw]
  simp only [Except.map]
  rw [h1, h2, h3 "QWH" (by decide) rfl, h6 "ER" (by decide) rfl rfl]

/-- Witness for C10: a connect-args map smuggling a `token` entry resolves
to exactly the same connection kwargs as the same map without it. -/
theorem reserved_keys_cannot_override_witness :
    getConnectKwargs (Env.mk (some "myacct") none none none none none none none none none none)
        urlEmpty none [("warehouse", "W")]
      = getConnectKwargs (Env.mk (some "myacct") none none none none none none none none none none)
        urlEmpty none [("token", "evil"), ("warehouse", "W")] :=
  (reserved_keys_cannot_override
    (Env.mk (some "myacct") none none none none none none none none none none)
    urlEmpty none [("token", "evil"), ("warehouse", "W")] [("warehouse", "W")] _
    (by
      intro k hk
      have hkt : ¬ ("token" : String) = k := by
        intro he
        exact hk (he ▸ (by decide : ("token" : String) ∈ reservedKeys))
      simp [lookupArgs, hkt])
    rfl).1
